import Mathlib

/-!
Verification of the mdcx fetch-and-merge subsystem against its
natural-language specification.  The Python source is shallowly embedded:
strings are `String` (viewed as `List Char` where convenient), byte bodies
are modelled as already-decoded strings, and the stateful retry loop of
`AsyncWebClient.request` is modelled as a pure fold over the sequence of
per-attempt transport outcomes.
-/

/-- ASCII lowercasing of one character (the fragment of Python `str.lower`
relevant to URLs, headers and challenge markers, which are all ASCII). -/
def ascii_lower_char (c : Char) : Char :=
  if 'A' ≤ c ∧ c ≤ 'Z' then Char.ofNat (c.toNat + 32) else c

/-- Lowercase a character list. -/
def ascii_lower_list (l : List Char) : List Char :=
  l.map ascii_lower_char

/-- Lowercase a string (models Python `str.lower` on ASCII data). -/
def ascii_lower (s : String) : String :=
  String.mk (ascii_lower_list s.data)

/-- `starts_with_list pat l` is true iff `pat` is a prefix of `l`. -/
def starts_with_list : List Char → List Char → Bool
  | [], _ => true
  | _ :: _, [] => false
  | p :: ps, x :: xs => p == x && starts_with_list ps xs

/-- `contains_list l pat` is true iff `pat` occurs as a contiguous sublist of
`l`; models Python's `pat in l` on strings. -/
def contains_list : List Char → List Char → Bool
  | [], pat => starts_with_list pat []
  | x :: xs, pat => starts_with_list pat (x :: xs) || contains_list xs pat

/-- Models Python `sub in s` for strings. -/
def str_contains (s sub : String) : Bool :=
  contains_list s.data sub.data

/-- Models Python `s.endswith(suf)` (used to state the "URL ends with
`.mp4`" side conditions). -/
def str_ends_with (s suf : String) : Bool :=
  starts_with_list suf.data.reverse s.data.reverse

/-- First `n` characters of a string (models `content[:8192]` on the decoded
body; byte/char truncation agree on the ASCII markers involved). -/
def str_take (s : String) (n : Nat) : String :=
  String.mk (s.data.take n)

/-- An HTTP response as seen by `AsyncWebClient`: status code, headers
(curl-cffi exposes a case-insensitive multi-map; modelled as an association
list searched case-insensitively) and the decoded body. -/
structure Resp where
  status : Nat
  headers : List (String × String)
  content : String

/-- `AsyncWebClient._extract_header_case_insensitive`: first header whose
name equals `key` up to case, else `""`. -/
def extract_header_case_insensitive : List (String × String) → String → String
  | [], _ => ""
  | (k, v) :: rest, key =>
    if ascii_lower k = ascii_lower key then v
    else extract_header_case_insensitive rest key

/-- The six challenge markers of `AsyncWebClient._is_cf_challenge_response`. -/
def challenge_markers : List String :=
  ["just a moment", "cf-chl", "cdn-cgi/challenge-platform",
   "attention required", "enable javascript and cookies",
   "checking your browser before accessing"]

/-- `AsyncWebClient._is_cf_challenge_response`, translated line by line:
the body (first 8 KiB, lowercased) is only inspected when the Content-Type
header contains `text/html` or is empty/missing; rule 1 needs
status ∈ {403,429,503} and (server ~ cloudflare or a cf-ray header);
rule 2 accepts the strong body markers alone. -/
def is_cf_challenge_response (r : Resp) : Bool :=
  let server := ascii_lower (extract_header_case_insensitive r.headers "server")
  let cf_ray := extract_header_case_insensitive r.headers "cf-ray"
  let content_type := ascii_lower (extract_header_case_insensitive r.headers "content-type")
  let body_text :=
    if str_contains content_type "text/html" || content_type == "" then
      ascii_lower (str_take r.content 8192)
    else ""
  let has_marker := challenge_markers.any (fun m => str_contains body_text m)
  if (r.status == 403 || r.status == 429 || r.status == 503)
      && (str_contains server "cloudflare" || cf_ray != "") && has_marker then
    true
  else if has_marker && (str_contains body_text "cf-chl"
      || str_contains body_text "cdn-cgi/challenge-platform") then
    true
  else false

/-- The challenge-classification rule exactly as the spec sentence states
it: the first 8 KiB of the body, lowercased, is always inspected (no
Content-Type gate). -/
def cf_challenge_claimed (r : Resp) : Bool :=
  let server := ascii_lower (extract_header_case_insensitive r.headers "server")
  let cf_ray := extract_header_case_insensitive r.headers "cf-ray"
  let body_text := ascii_lower (str_take r.content 8192)
  let has_marker := challenge_markers.any (fun m => str_contains body_text m)
  (has_marker
      && ((r.status == 403 || r.status == 429 || r.status == 503)
          && (str_contains server "cloudflare" || cf_ray != "")))
    || str_contains body_text "cf-chl"
    || str_contains body_text "cdn-cgi/challenge-platform"

/-- The claim amended by the Content-Type gate the source applies before
reading the body: markers are only searched when the Content-Type contains
`text/html` or is empty/missing. -/
def cf_challenge_claimed_amended (r : Resp) : Bool :=
  let server := ascii_lower (extract_header_case_insensitive r.headers "server")
  let cf_ray := extract_header_case_insensitive r.headers "cf-ray"
  let content_type := ascii_lower (extract_header_case_insensitive r.headers "content-type")
  let body_text :=
    if str_contains content_type "text/html" || content_type == "" then
      ascii_lower (str_take r.content 8192)
    else ""
  let has_marker := challenge_markers.any (fun m => str_contains body_text m)
  (has_marker
      && ((r.status == 403 || r.status == 429 || r.status == 503)
          && (str_contains server "cloudflare" || cf_ray != "")))
    || str_contains body_text "cf-chl"
    || str_contains body_text "cdn-cgi/challenge-platform"

/-- `AsyncWebClient._is_retryable_status_code`: the tuple of transient
statuses in the source (note: `403` is a member unconditionally). -/
def is_retryable_status_code (status : Nat) : Bool :=
  status == 500 || status == 502 || status == 503 || status == 403 ||
    status == 408 || status == 429 || status == 504

/-- `resp.headers.get("Location")` truthiness (the curl-cffi header map is
case-insensitive). -/
def resp_has_location (r : Resp) : Bool :=
  extract_header_case_insensitive r.headers "location" != ""

/-- The status classification of one `request` attempt that did not enter
the Cloudflare-bypass branch (web_async.py lines 790-797):
`none` = success (2xx/3xx<300 impossible wording: status < 300, or a 302
with a Location header), `some b` = failure with retry flag `b`. -/
def request_status_retry (status : Nat) (has_location : Bool) : Option Bool :=
  if 300 ≤ status ∧ ¬(status = 302 ∧ has_location = true) then
    some (is_retryable_status_code status)
  else none

/-- Outcome of `AsyncWebClient._try_bypass_cloudflare`, abstracted: either a
bypass response, or an error message together with the value
`_extract_terminal_bypass_status` parses out of that message. -/
inductive BypassOutcome where
  | ok (r : Resp)
  | fail (err : String) (terminal_status : Option Nat)

/-- Transport outcome of one attempt of the retry loop of
`AsyncWebClient.request`: a response (with the bypass outcome that would be
used if the challenge branch fires), or one of the caught exception
classes. -/
inductive AttemptEvent where
  | response (r : Resp) (bypass : BypassOutcome)
  | timeout
  | connectionError (msg : String)
  | requestError (msg : String) (code : Nat)
  | otherError (msg : String)

/-- The configuration of one `request` call: method/url (for the failure
message), `retry` (number of attempts), the `enable_cf_bypass` argument,
the client-level `_cf_bypass_enabled` flag, the parsed host, and
`_cf_request_bypass_rounds`. -/
structure RequestCfg where
  method : String
  url : String
  retry : Nat
  enable_cf_bypass : Bool
  cf_bypass_enabled : Bool
  host : String
  cf_request_bypass_rounds : Nat

/-- One iteration of `request`'s retry loop (web_async.py lines 690-818):
either an early successful return (`.inl`) or the error message, retry flag
and updated bypass round (`.inr`).  Logging, sleeps and the per-host
challenge-hit counter are side effects without influence on the returned
value and are not modelled. -/
def request_attempt (cfg : RequestCfg) (ev : AttemptEvent)
    (attempt bypass_round : Nat) : Resp ⊕ (String × Bool × Nat) :=
  match ev with
  | .timeout => .inr ("连接超时", true, bypass_round)
  | .connectionError m => .inr ("连接错误: " ++ m, true, bypass_round)
  | .requestError m code => .inr ("请求异常: " ++ m ++ " " ++ toString code, true, bypass_round)
  | .otherError m => .inr ("curl-cffi 异常: " ++ m, false, bypass_round)
  | .response r bypass =>
    if cfg.enable_cf_bypass && cfg.cf_bypass_enabled && cfg.host != ""
        && is_cf_challenge_response r then
      if cfg.cf_request_bypass_rounds ≤ bypass_round then
        .inr ("Cloudflare 挑战页持续存在，bypass 已达上限", false, bypass_round)
      else
        match bypass with
        | .ok br =>
          if 300 ≤ br.status ∧ ¬(br.status = 302 ∧ resp_has_location br = true) then
            .inr ("HTTP " ++ toString br.status ++ " (bypass)",
              decide (attempt + 1 < cfg.retry) && is_retryable_status_code br.status,
              bypass_round + 1)
          else .inl br
        | .fail err ts =>
          let msg := "Cloudflare 挑战页且 bypass 失败: " ++ err
          match ts with
          | some s =>
            if is_retryable_status_code s then
              .inr (msg, decide (attempt + 1 < cfg.retry)
                && decide (bypass_round + 1 < cfg.cf_request_bypass_rounds),
                bypass_round + 1)
            else .inr (msg, false, bypass_round + 1)
          | none =>
            .inr (msg, decide (attempt + 1 < cfg.retry)
              && decide (bypass_round + 1 < cfg.cf_request_bypass_rounds),
              bypass_round + 1)
    else
      match request_status_retry r.status (resp_has_location r) with
      | some retry_flag => .inr ("HTTP " ++ toString r.status, retry_flag, bypass_round)
      | none => .inl r

/-- The terminal failure message of `request`
(`f"{method} {url} 失败: {error_msg}"`). -/
def request_fail_msg (method url error_msg : String) : String :=
  method ++ " " ++ url ++ " 失败: " ++ error_msg

/-- The retry loop of `AsyncWebClient.request` as a fold over the list of
attempt outcomes (the source iterates `for attempt in range(retry_count)`).
Returns the `(response, error)` pair of the source. -/
def request_loop (cfg : RequestCfg) :
    List AttemptEvent → Nat → Nat → String → Option Resp × String
  | [], _, _, error_msg =>
    (none, request_fail_msg cfg.method cfg.url error_msg)
  | ev :: rest, attempt, bypass_round, _ =>
    match request_attempt cfg ev attempt bypass_round with
    | .inl r => (some r, "")
    | .inr (msg, retry, bround) =>
      if retry then request_loop cfg rest (attempt + 1) bround msg
      else (none, request_fail_msg cfg.method cfg.url msg)

/-- The spec's partition of transient-retryable statuses, parameterized by
whether Cloudflare bypass is disabled (claim C2's wording). -/
def transient_retryable (bypass_disabled : Bool) (status : Nat) : Prop :=
  status ∈ [408, 429, 500, 502, 503, 504] ∨ (status = 403 ∧ bypass_disabled = true)

/-- `drop_pre pat l = some rest` iff `l = pat ++ rest`; strips a known
prefix (used on reversed strings to strip a known suffix). -/
def drop_pre : List Char → List Char → Option (List Char)
  | [], l => some l
  | _ :: _, [] => none
  | p :: ps, x :: xs => if p == x then drop_pre ps xs else none

/-- The quality ladder of `DmmCrawler._trailer_quality_rank`, keyed by the
REVERSED token characters (rank functions below parse the URL from its
end), with the alias tokens `mmbs/hmbs/mhbs/hhbs/4ks` already resolved to
their base rank exactly as `alias.get` + `quality_levels.get` do. -/
def rev_quality_table : List (List Char × Nat) :=
  [(['m', 's'], 1), (['m', 'd'], 2), (['b', 'm', 'd'], 3), (['b', 'm', 'm'], 4),
   (['b', 'm', 'h'], 5), (['b', 'h', 'm'], 6), (['b', 'h', 'h'], 7), (['k', '4'], 8),
   (['s', 'b', 'm', 'm'], 4), (['s', 'b', 'm', 'h'], 5), (['s', 'b', 'h', 'm'], 6),
   (['s', 'b', 'h', 'h'], 7), (['s', 'k', '4'], 8)]

/-- Find the unique table token that is a prefix of `l` (at most one can
match: no token of the ladder is a suffix of another, so no reversed token
is a prefix of another; hence this equals the regex's
leftmost-match/alternation choice, both anchored at the URL end). -/
def find_rev_token : List (List Char × Nat) → List Char → Option (Nat × List Char)
  | [], _ => none
  | (t, r) :: tbl, l =>
    if starts_with_list t l then some (r, l.drop t.length) else find_rev_token tbl l

/-- The `[a-z]` character class of the trailer regexes (IGNORECASE is
handled by lowercasing the whole URL first). -/
def is_ascii_lower_alpha (c : Char) : Bool := 'a' ≤ c && c ≤ 'z'

/-- First regex of `_trailer_quality_rank`:
`_(sm|dm|dmb|mmb|hmb|mhb|hhb|4k|mmbs|hmbs|mhbs|hhbs|4ks)_[a-z]\.mp4$`,
evaluated on the reversed lowercased URL after the reversed `".mp4"` suffix
has been stripped: one letter, `'_'`, a reversed token, then `'_'`. -/
def rank_pat_underscore (l : List Char) : Option Nat :=
  match l with
  | c :: u :: r2 =>
    if u == '_' && is_ascii_lower_alpha c then
      match find_rev_token rev_quality_table r2 with
      | some (r, rest) => if rest.head? == some '_' then some r else none
      | none => none
    else none
  | _ => none

/-- Second regex of `_trailer_quality_rank`: `(…tokens…)\.mp4$` — a token
directly before the `".mp4"` suffix, no delimiter required. -/
def rank_pat_plain (l : List Char) : Option Nat :=
  match find_rev_token rev_quality_table l with
  | some (r, _) => some r
  | none => none

/-- `DmmCrawler._trailer_quality_rank` on the reversed lowercased
character list: strip `".mp4"` (reversed: `4pm.`), try the underscore
pattern, then the plain pattern, else rank 0. -/
def rank_rev (l : List Char) : Nat :=
  match drop_pre ['4', 'p', 'm', '.'] l with
  | none => 0
  | some r1 =>
    match rank_pat_underscore r1 with
    | some r => r
    | none => (rank_pat_plain r1).getD 0

/-- `DmmCrawler._trailer_quality_rank`. -/
def trailer_quality_rank (url : String) : Nat :=
  rank_rev (ascii_lower_list url.data).reverse

/-- The claim's ladder (with alias tokens mapped to their base ranks), in
reading order, for stating claim C5. -/
def dmm_quality_tokens : List (String × Nat) :=
  [("sm", 1), ("dm", 2), ("dmb", 3), ("mmb", 4), ("hmb", 5), ("mhb", 6),
   ("hhb", 7), ("4k", 8), ("mmbs", 4), ("hmbs", 5), ("mhbs", 6),
   ("hhbs", 7), ("4ks", 8)]

/-- `DmmCrawler._is_hls_playlist_trailer`. -/
def is_hls_playlist_trailer (u : String) : Bool :=
  str_contains (ascii_lower u) ".m3u8"

/-- `DmmCrawler._pick_higher_quality_trailer`. -/
def pick_higher_quality_trailer (current candidate : String) : String :=
  if current == "" then candidate
  else if trailer_quality_rank current < trailer_quality_rank candidate then candidate
  else current

/-- The per-detail-URL parse result of the DMM crawler, restricted to the
fields the trailer-merge claim observes (`CrawlerData` has many more
fields; they are merged by the same per-field rule). -/
structure CrawlerData where
  title : String
  trailer : String

/-- Modelled from the spec: `is_valid` (crawlers/base, not under `src/`).
Spec §4.5 validity rule: a scalar field is valid iff non-empty and not a
configured placeholder; no placeholder is configured for the fields
carried here. -/
def is_valid (s : String) : Bool := s != ""

/-- Modelled from the spec: `update_valid` (utils/dataclass, not under
`src/`).  Spec §4.4/§4.5: detail-URL records are merged per field with the
validity rule, the record merged later (higher category priority) winning
where its field is valid. -/
def update_valid (a b : CrawlerData) : CrawlerData :=
  ⟨if is_valid b.title then b.title else a.title,
   if is_valid b.trailer then b.trailer else a.trailer⟩

/-- `res = r` when res is None else `update_valid res r` (dmm `_detail`
lines 244-247). -/
def merge_into : Option CrawlerData → CrawlerData → Option CrawlerData
  | none, d => some d
  | some a, d => some (update_valid a d)

/-- One iteration of the result loop of `DmmCrawler._detail` (lines
218-247): exceptions are skipped; a record with a valid `.m3u8` trailer is
skipped entirely (the `continue` at line 227); otherwise the best-trailer
candidate is updated (only for valid non-HLS trailers) and the record is
merged into the accumulator. -/
def detail_merge_step (acc : Option CrawlerData × String)
    (r : Except String CrawlerData) : Option CrawlerData × String :=
  match r with
  | .error _ => acc
  | .ok d =>
    if is_valid d.trailer then
      if is_hls_playlist_trailer d.trailer then acc
      else (merge_into acc.1 d, pick_higher_quality_trailer acc.2 d.trailer)
    else (merge_into acc.1 d, acc.2)

/-- The result loop of `DmmCrawler._detail`: `group.results[::-1]` folded
through `detail_merge_step`, yielding the `(res, best_trailer)` pair. -/
def detail_merge_acc (results : List (Except String CrawlerData)) :
    Option CrawlerData × String :=
  results.reverse.foldl detail_merge_step (none, "")

/-- The merge phase of `DmmCrawler._detail` (lines 216-259): fold the
gathered results in reverse order, then apply the final trailer rewrite:
adopt the best candidate when one exists, else blank out a remaining HLS
trailer. -/
def detail_merge (results : List (Except String CrawlerData)) : Option CrawlerData :=
  match detail_merge_acc results with
  | (none, _) => none
  | (some res, best) =>
    if best != "" then some { res with trailer := best }
    else if is_valid res.trailer && is_hls_playlist_trailer res.trailer then
      some { res with trailer := "" }
    else some res

/-- `pathlib.PurePath.name`: the final component of the path (the part
after the last `/`). -/
def path_name (p : List Char) : List Char :=
  (p.reverse.takeWhile (fun c => !(c == '/'))).reverse

/-- `pathlib.PurePath.suffix`: with `i = name.rfind('.')`, the slice
`name[i:]` when `0 < i < len(name) - 1`, else `""`.  Computed on the
reversed name: `pre` is the run of characters after the last dot; no dot,
a trailing dot, or a dot at index 0 all yield `""`.  The result therefore
always starts with `'.'` when non-empty. -/
def path_suffix_of_name (name : List Char) : List Char :=
  let rev := name.reverse
  let pre := rev.takeWhile (fun c => !(c == '.'))
  if pre.length == rev.length then []
  else if pre.length == 0 then []
  else if pre.length + 1 == rev.length then []
  else '.' :: pre.reverse

/-- `Path(p).suffix` as a string. -/
def path_suffix (p : String) : String :=
  String.mk (path_suffix_of_name (path_name p.data))

/-- The webp decision of `AsyncWebClient.download` (web_async.py lines
970-972), verbatim: `file_path.suffix == "jpg" and ".webp" in url`.  Note
the comparison is against `"jpg"` without the leading dot. -/
def download_webp_flag (file_path url : String) : Bool :=
  path_suffix file_path == "jpg" && str_contains url ".webp"

/-- What the small-download branch of `download` does with the fetched
bytes (lines 983-1001): plain write, or decode + re-encode as JPEG
(quality 95). -/
inductive WriteMode where
  | raw
  | jpegReencode
deriving DecidableEq

/-- The write mode `download` selects for a small download. -/
def download_write_mode (file_path url : String) : WriteMode :=
  if download_webp_flag file_path url then .jpegReencode else .raw

/-- The whitespace characters Python `str.strip` removes (ASCII part). -/
def is_py_space (c : Char) : Bool :=
  c == ' ' || c == '\t' || c == '\n' || c == '\r' || c == '\x0b' || c == '\x0c'

/-- Python `str.strip()` on the character list. -/
def py_strip (l : List Char) : List Char :=
  ((l.dropWhile is_py_space).reverse.dropWhile is_py_space).reverse

/-- Python `str.strip()`. -/
def str_strip (s : String) : String :=
  String.mk (py_strip s.data)

/-- `int` of a digit run. -/
def nat_of_digits (l : List Char) : Nat :=
  l.foldl (fun a c => a * 10 + (c.toNat - '0'.toNat)) 0

/-- Python `int(str)` on the Content-Length header value: surrounding
whitespace tolerated, optional sign, all remaining characters digits;
`none` models the `ValueError` path (caught by `check_url`'s `except`,
ending in `None`). -/
def py_int_parse (s : String) : Option Int :=
  match py_strip s.data with
  | [] => none
  | '-' :: ds =>
    if ds ≠ [] ∧ ds.all (fun c => c.isDigit) then some (-(nat_of_digits ds : Int))
    else none
  | '+' :: ds =>
    if ds ≠ [] ∧ ds.all (fun c => c.isDigit) then some ((nat_of_digits ds : Int))
    else none
  | ds =>
    if ds.all (fun c => c.isDigit) then some ((nat_of_digits ds : Int))
    else none

/-- The "image deleted on site" URL keywords of `check_url`. -/
def bad_url_keys : List String :=
  ["now_printing", "nowprinting", "noimage", "nopic", "media_violation"]

/-- The value `check_url` produces: a byte size (`length=True`) or a
terminal URL (`length=False`). -/
inductive CheckResult where
  | size (n : Int)
  | link (u : String)
deriving DecidableEq

/-- The response `check_url` observes for one probe: status code, terminal
URL (`str(response.url)`), and the raw `Content-Length` header if any. -/
structure ProbeResponse where
  status : Nat
  terminal_url : String
  content_length : Option String

/-- Python `str.replace` (all non-overlapping occurrences, left to right),
with the list length as fuel (each step consumes at least one character). -/
def replace_all_aux : Nat → List Char → List Char → List Char → List Char
  | 0, l, _, _ => l
  | fuel + 1, l, pat, rep =>
    match l with
    | [] => []
    | x :: xs =>
      if pat ≠ [] ∧ starts_with_list pat (x :: xs) = true then
        rep ++ replace_all_aux fuel ((x :: xs).drop pat.length) pat rep
      else x :: replace_all_aux fuel xs pat rep

/-- `s.replace(pat, rep)`. -/
def str_replace (s pat rep : String) : String :=
  String.mk (replace_all_aux s.data.length s.data pat.data rep.data)

/-- The no-Content-Length fallback of `check_url` (web.py lines 100-110):
pre-download the body; accept iff it is non-empty (`pre_download` is the
byte count of `get_content`, `none` on failure). -/
def check_url_pre_download (length_flag : Bool) (terminal_url : String)
    (pre_download : Option Nat) : Option CheckResult :=
  match pre_download with
  | some k =>
    if 0 < k then some (if length_flag then .size 10240 else .link terminal_url)
    else none
  | none => none

/-- One attempt of `check_url` (web.py lines 29-130) given the probe
response.  The request itself is abstract: for `awsimgsrc.dmm.co.jp` URLs
the source appends `w=120&h=90` probe parameters and issues a `GET`
(otherwise `HEAD`), so "the request method was GET" is exactly
`"awsimgsrc.dmm.co.jp" in url`; appending the parameters does not affect
the `"_w.mp4" in url` membership test, so the original `url` is used.
The retry loop only re-runs on transport failure, which is outside this
per-response classification. -/
def check_url_attempt (url : String) (length_flag real_url : Bool)
    (resp : ProbeResponse) (pre_download : Option Nat) : Option CheckResult :=
  if url == "" then none
  else if !(str_contains url "http") then none
  else if resp.status == 404 && str_contains url "_w.mp4" then none
  else if real_url then some (.link resp.terminal_url)
  else if str_contains resp.terminal_url "login" then none
  else if bad_url_keys.any (fun k => str_contains resp.terminal_url k) then none
  else
    match resp.content_length with
    | none => check_url_pre_download length_flag resp.terminal_url pre_download
    | some s =>
      if s == "" then check_url_pre_download length_flag resp.terminal_url pre_download
      else
        match py_int_parse s with
        | none => none
        | some n =>
          if n < 8192 then
            if str_contains resp.terminal_url "awsimgsrc.dmm.co.jp"
                && str_contains url "awsimgsrc.dmm.co.jp" then
              some (if length_flag then .size n
                    else .link (str_replace resp.terminal_url "w=120&h=90" ""))
            else none
          else some (if length_flag then .size n else .link resp.terminal_url)

/-- The first maximal digit run of a string (Python
`re.search(r"\d+", value)`), as its character list. -/
def first_digit_run : List Char → Option (List Char)
  | [] => none
  | c :: cs =>
    if c.isDigit then some (c :: cs.takeWhile (fun d => d.isDigit))
    else first_digit_run cs

/-- Round-half-to-even division (Python 3 `round(n / d)`; at a tie `n / d`
is exactly representable as a float for all realistic durations, so the
float rounding agrees with this exact rational rounding). -/
def round_half_even_div (n d : Nat) : Nat :=
  let q := n / d
  let r := n % d
  if 2 * r < d then q
  else if d < 2 * r then q + 1
  else if q % 2 == 0 then q else q + 1

/-- `MissavDetailParser._to_minutes` (missav.py lines 105-116): strip,
return `""` on empty, return the input unchanged when it has no digits,
else take the first number `n`; `n ≥ 300` is seconds, converted to minutes
(rounded, floored at 1), otherwise `n` is already minutes. -/
def to_minutes (s : String) : String :=
  let v := str_strip s
  if v == "" then ""
  else
    match first_digit_run v.data with
    | none => v
    | some ds =>
      let n := nat_of_digits ds
      if 300 ≤ n then toString (max 1 (round_half_even_div n 60))
      else toString n

/-- The number `_to_minutes` extracts: `none` when the stripped input is
empty or has no digits. -/
def parsed_duration_number (s : String) : Option Nat :=
  if str_strip s == "" then none
  else (first_digit_run (str_strip s).data).map nat_of_digits

/-- The Python exception values observable through `GatherGroup.results`. -/
inductive PyExc where
  | timeoutError (msg : String)
  | valueError (msg : String)
  | runtimeError (msg : String)
deriving DecidableEq

/-- The mutable state of a `GatherGroup`: the coroutine list and the
`_entered` flag (`τ` stands for the opaque coroutine objects). -/
structure GatherGroupState (τ : Type) where
  tasks : List τ
  entered : Bool

/-- `GatherGroup.add` (gather_group.py lines 19-33): raising `RuntimeError`
before touching `_tasks` is modelled as returning the state unchanged
together with `true` in the raised flag. -/
def gather_group_add {τ : Type} (g : GatherGroupState τ) (coro : τ) :
    GatherGroupState τ × Bool :=
  if g.entered then ({ g with tasks := g.tasks ++ [coro] }, false)
  else (g, true)

/-- `GatherGroup.__aenter__`. -/
def gather_group_aenter {τ : Type} (g : GatherGroupState τ) : GatherGroupState τ :=
  { g with entered := true }

/-- The exception `__aexit__` substitutes on a group timeout:
`TimeoutError(f"GatherGroup 整体超时 ({self._timeout}s)")`. -/
def group_timeout_error (timeout_repr : String) : PyExc :=
  .timeoutError ("GatherGroup 整体超时 (" ++ timeout_repr ++ "s)")

/-- `GatherGroup.__aexit__` (gather_group.py lines 39-56).  `outcomes` is
what `asyncio.gather(*tasks, return_exceptions=True)` resolves to: one
entry per task in add order, a task's exception delivered in its own slot
without cancelling siblings (the documented stdlib semantics of
`return_exceptions=True`).  `timed_out` is whether `asyncio.wait_for`
raised `TimeoutError` (possible only when a timeout was configured).
`none` models `_results` never being assigned (empty group: early
return). -/
def gather_group_aexit {α : Type} (outcomes : List (Except PyExc α))
    (timeout_repr : Option String) (timed_out : Bool) :
    Option (List (Except PyExc α)) :=
  if outcomes.isEmpty then none
  else
    match timeout_repr with
    | some t =>
      if timed_out then
        some (List.replicate outcomes.length (Except.error (group_timeout_error t)))
      else some outcomes
    | none => some outcomes


/-- Claim C1 (counterexample): the claim states the body markers are always
inspected; the source only inspects the body when the Content-Type contains
`text/html` or is absent.  A 200 response with Content-Type
`application/json` whose body contains `cf-chl` satisfies the claim's rule
but is not classified as a challenge by the code. -/
theorem c1_cf_challenge_counterexample :
    is_cf_challenge_response
      ⟨200, [("content-type", "application/json")], "cf-chl"⟩ = false ∧
    cf_challenge_claimed
      ⟨200, [("content-type", "application/json")], "cf-chl"⟩ = true := by
  constructor <;> rfl

/-- Claim C1 (amended): the client classifies a response as a Cloudflare
challenge if and only if the first 8 KiB of the body, lowercased —
inspected only when the Content-Type header contains `text/html` or is
empty/missing — contains one of the six markers and either the status is
in {403, 429, 503} with the server header containing `cloudflare` or a
cf-ray header present, or, as a fallback, the body contains `cf-chl` or
`cdn-cgi/challenge-platform` on its own. -/
theorem c1_cf_challenge_amended :
    ∀ r : Resp, is_cf_challenge_response r = cf_challenge_claimed_amended r := by
  intro r
  simp only [is_cf_challenge_response, cf_challenge_claimed_amended,
    challenge_markers, List.any]
  generalize (if str_contains (ascii_lower (extract_header_case_insensitive r.headers "content-type")) "text/html"
        || ascii_lower (extract_header_case_insensitive r.headers "content-type") == "" then
      ascii_lower (str_take r.content 8192) else "") = bt
  generalize (r.status == 403 || r.status == 429 || r.status == 503) = a
  generalize (str_contains (ascii_lower (extract_header_case_insensitive r.headers "server")) "cloudflare"
      || extract_header_case_insensitive r.headers "cf-ray" != "") = b
  rcases Bool.eq_false_or_eq_true (str_contains bt "cf-chl") with h1 | h1 <;>
    rcases Bool.eq_false_or_eq_true
      (str_contains bt "cdn-cgi/challenge-platform") with h2 | h2 <;>
      simp [h1, h2, Bool.and_comm, Bool.and_left_comm, Bool.and_assoc]

theorem mdcx_data_append (a b : String) : (a ++ b).data = a.data ++ b.data := rfl

theorem request_fail_msg_ne_empty (method url error_msg : String) :
    request_fail_msg method url error_msg ≠ "" := by
  intro h
  have hd : (request_fail_msg method url error_msg).data = ([] : List Char) :=
    congrArg String.data h
  rw [request_fail_msg, mdcx_data_append, mdcx_data_append] at hd
  rcases List.append_eq_nil.mp hd with ⟨h1, -⟩
  rcases List.append_eq_nil.mp h1 with ⟨-, h3⟩
  exact absurd h3 (by decide)

/-- Claim C2 (counterexample): the claim says a 403 schedules a retry only
when Cloudflare bypass is disabled; `_is_retryable_status_code` contains
403 unconditionally, so a non-challenge 403 response is retried even with
bypass enabled (`transient_retryable false` is the claim's predicate with
bypass enabled). -/
theorem c2_retryable_status_counterexample :
    ¬ (∀ status has_location,
        request_status_retry status has_location = some true ↔
          transient_retryable false status) := by
  intro h
  have h403 := (h 403 false).mp (by decide)
  simp [transient_retryable] at h403

/-- Claim C2 (amended): for an attempt classified outside the
Cloudflare-bypass branch, a retry is scheduled exactly when the status is
one of 408, 429, 500, 502, 503, 504 or 403 — regardless of the bypass
setting; a status below 300, or a 302 carrying a Location header, is
success; any other non-success status is a terminal failure. -/
theorem c2_retryable_status_amended :
    ∀ status has_location,
      (request_status_retry status has_location = some true ↔
        status ∈ [408, 429, 500, 502, 503, 504, 403]) ∧
      (request_status_retry status has_location = none ↔
        (status < 300 ∨ (status = 302 ∧ has_location = true))) ∧
      (request_status_retry status has_location = some false ↔
        (300 ≤ status ∧ ¬(status = 302 ∧ has_location = true) ∧
          status ∉ [408, 429, 500, 502, 503, 504, 403])) := by
  intro status has_location
  cases has_location <;>
    simp only [request_status_retry, is_retryable_status_code, List.mem_cons,
      List.not_mem_nil] <;>
    split_ifs with h <;>
    simp_all <;>
    omega

/-- Claim C9: `AsyncWebClient.request` always returns a pair — a response
with an empty error string on success, or `None` with a non-empty error
message on failure; every transport outcome (timeout, connection error,
request exception, any other exception) lands in one of these two shapes. -/
theorem c9_request_returns_pair :
    ∀ (cfg : RequestCfg) (events : List AttemptEvent)
      (attempt bypass_round : Nat) (msg : String),
      (∃ r, request_loop cfg events attempt bypass_round msg = (some r, "")) ∨
      (∃ e, request_loop cfg events attempt bypass_round msg = (none, e) ∧ e ≠ "") := by
  intro cfg events
  induction events with
  | nil =>
    intro attempt bypass_round msg
    exact .inr ⟨_, rfl, request_fail_msg_ne_empty _ _ _⟩
  | cons ev rest ih =>
    intro attempt bypass_round msg
    rcases hcl : request_attempt cfg ev attempt bypass_round with r | ⟨msg', retry, bround⟩
    · left
      exact ⟨r, by simp [request_loop, hcl]⟩
    · rcases retry with _ | _
      · have hres : request_loop cfg (ev :: rest) attempt bypass_round msg =
            (none, request_fail_msg cfg.method cfg.url msg') := by
          simp [request_loop, hcl]
        exact .inr ⟨_, hres, request_fail_msg_ne_empty _ _ _⟩
      · have hres : request_loop cfg (ev :: rest) attempt bypass_round msg =
            request_loop cfg rest (attempt + 1) bround msg' := by
          simp [request_loop, hcl]
        rw [hres]
        exact ih (attempt + 1) bround msg'

theorem trailer_quality_rank_examples :
    trailer_quality_rank "https://cc3001.dmm.co.jp/litevideo/freepv/s/ssi/ssis00090/ssis00090_hhb_w.mp4" = 7 ∧
    trailer_quality_rank "https://cc3001.dmm.co.jp/pv/xxxx/nima000704k.mp4" = 8 ∧
    trailer_quality_rank "x_mmbs_w.mp4" = 4 ∧
    trailer_quality_rank "x_4K_W.MP4" = 8 ∧
    trailer_quality_rank "https://h/a.m3u8" = 0 ∧
    trailer_quality_rank "x_sm_9.mp4" = 0 ∧
    trailer_quality_rank "xsm.mp4" = 1 ∧
    trailer_quality_rank "a4ks.mp4" = 8 ∧
    trailer_quality_rank "video.mp4" = 0 := by
  refine ⟨?_, ?_, ?_, ?_, ?_, ?_, ?_, ?_, ?_⟩ <;> rfl

theorem detail_merge_example :
    detail_merge [Except.ok ⟨"t", "http://x/a_sm_w.mp4"⟩] =
      some ⟨"t", "http://x/a_sm_w.mp4"⟩ := by rfl

theorem mk_data (l : List Char) : (String.mk l).data = l := rfl

theorem drop_pre_none_of_not_starts (p l : List Char)
    (h : starts_with_list p l = false) : drop_pre p l = none := by
  induction p generalizing l with
  | nil => simp [starts_with_list] at h
  | cons c cs ih =>
    cases l with
    | nil => rfl
    | cons x xs =>
      by_cases hc : (c == x) = true
      · simp only [starts_with_list, hc, Bool.true_and] at h
        simp [drop_pre, hc, ih xs h]
      · simp [drop_pre, Bool.eq_false_iff.mpr hc]

theorem pick_higher_eq_or (a b : String) :
    pick_higher_quality_trailer a b = a ∨ pick_higher_quality_trailer a b = b := by
  unfold pick_higher_quality_trailer
  split_ifs <;> simp

theorem detail_step_best_not_hls (acc : Option CrawlerData × String)
    (x : Except String CrawlerData)
    (h : acc.2 ≠ "" → is_hls_playlist_trailer acc.2 = false) :
    (detail_merge_step acc x).2 ≠ "" →
      is_hls_playlist_trailer (detail_merge_step acc x).2 = false := by
  rcases x with e | d
  · exact h
  · simp only [detail_merge_step]
    by_cases hv : is_valid d.trailer = true
    · rw [if_pos hv]
      by_cases hh : is_hls_playlist_trailer d.trailer = true
      · rw [if_pos hh]; exact h
      · rw [if_neg hh]
        show pick_higher_quality_trailer acc.2 d.trailer ≠ "" → _
        intro hne
        rcases pick_higher_eq_or acc.2 d.trailer with hp | hp
        · rw [hp] at hne ⊢
          exact h hne
        · rw [hp]
          exact Bool.eq_false_iff.mpr hh
    · rw [if_neg hv]
      exact h

theorem detail_fold_best_not_hls (l : List (Except String CrawlerData)) :
    ∀ acc : Option CrawlerData × String,
      (acc.2 ≠ "" → is_hls_playlist_trailer acc.2 = false) →
      ((l.foldl detail_merge_step acc).2 ≠ "" →
        is_hls_playlist_trailer (l.foldl detail_merge_step acc).2 = false) := by
  induction l with
  | nil => intro acc h; simpa using h
  | cons x xs ih =>
    intro acc h
    simp only [List.foldl_cons]
    exact ih _ (detail_step_best_not_hls acc x h)

theorem is_valid_false_iff (s : String) : is_valid s = false ↔ s = "" := by
  simp [is_valid]

/-- Claim C4: the merged record returned by `DmmCrawler._detail` never
carries a trailer URL containing `.m3u8`: every candidate whose URL
contains `.m3u8` is skipped during best-trailer selection, and a remaining
HLS trailer on the merged record is blanked out. -/
theorem c4_detail_merge_no_m3u8 (results : List (Except String CrawlerData))
    (res : CrawlerData) (h : detail_merge results = some res) :
    is_hls_playlist_trailer res.trailer = false := by
  have hinv : (detail_merge_acc results).2 ≠ "" →
      is_hls_playlist_trailer (detail_merge_acc results).2 = false :=
    detail_fold_best_not_hls _ _ (by intro hne; simp at hne)
  unfold detail_merge at h
  rcases hacc : detail_merge_acc results with ⟨o, best⟩
  rw [hacc] at h hinv
  rcases o with _ | a
  · exact Option.noConfusion (show (none : Option CrawlerData) = some res from h)
  · replace h : (if (best != "") = true
        then some { a with trailer := best }
        else if (is_valid a.trailer && is_hls_playlist_trailer a.trailer) = true
          then some { a with trailer := "" }
          else some a) = some res := h
    by_cases hb : (best != "") = true
    · rw [if_pos hb] at h
      have hres := Option.some.inj h
      subst hres
      exact hinv (bne_iff_ne.mp hb)
    · rw [if_neg hb] at h
      by_cases hvh : (is_valid a.trailer && is_hls_playlist_trailer a.trailer) = true
      · rw [if_pos hvh] at h
        have hres := Option.some.inj h
        subst hres
        exact (by decide : is_hls_playlist_trailer "" = false)
      · rw [if_neg hvh] at h
        have hres := Option.some.inj h
        subst hres
        by_cases hv : is_valid a.trailer = true
        · cases hhh : is_hls_playlist_trailer a.trailer
          · rfl
          · exact absurd (by simp [hv, hhh]) hvh
        · rw [(is_valid_false_iff a.trailer).mp (Bool.eq_false_iff.mpr hv)]
          exact (by decide : is_hls_playlist_trailer "" = false)

/-- Two strings with the same character data are equal. -/
theorem string_data_inj {a b : String} (h : a.data = b.data) : a = b := by
  cases a
  cases b
  cases h
  rfl

/-- Soundness of `starts_with_list`: a successful prefix test decomposes
the list. -/
theorem starts_with_list_eq_append (p : List Char) :
    ∀ l : List Char, starts_with_list p l = true → l = p ++ l.drop p.length := by
  induction p with
  | nil => intro l _; simp
  | cons c cs ih =>
    intro l h
    cases l with
    | nil => simp [starts_with_list] at h
    | cons x xs =>
      simp only [starts_with_list, Bool.and_eq_true, beq_iff_eq] at h
      obtain ⟨rfl, h2⟩ := h
      exact congrArg (c :: ·) (ih xs h2)

/-- Soundness of `drop_pre`: a successful strip decomposes the list. -/
theorem drop_pre_sound (p : List Char) :
    ∀ l r : List Char, drop_pre p l = some r → l = p ++ r := by
  induction p with
  | nil =>
    intro l r h
    simpa [drop_pre] using Option.some.inj h
  | cons c cs ih =>
    intro l r h
    cases l with
    | nil => exact Option.noConfusion h
    | cons x xs =>
      simp only [drop_pre] at h
      by_cases hc : (c == x) = true
      · rw [if_pos hc] at h
        have hcx : c = x := beq_iff_eq.mp hc
        subst hcx
        exact congrArg (c :: ·) (ih xs r h)
      · rw [if_neg hc] at h
        exact Option.noConfusion h

/-- Soundness of `find_rev_token`: a hit names a table token that prefixes
the list. -/
theorem find_rev_token_sound (tbl : List (List Char × Nat)) (l : List Char)
    (r : Nat) (rest : List Char) (h : find_rev_token tbl l = some (r, rest)) :
    ∃ t, (t, r) ∈ tbl ∧ l = t ++ rest := by
  induction tbl with
  | nil => exact Option.noConfusion h
  | cons e tbl ih =>
    rcases e with ⟨t, rt⟩
    simp only [find_rev_token] at h
    by_cases hs : starts_with_list t l = true
    · rw [if_pos hs] at h
      obtain ⟨h1, h2⟩ := Prod.mk.injEq .. |>.mp (Option.some.inj h)
      subst h1
      subst h2
      exact ⟨t, List.mem_cons_self _ _, starts_with_list_eq_append t l hs⟩
    · rw [if_neg hs] at h
      obtain ⟨t2, ht2, heq⟩ := ih h
      exact ⟨t2, List.mem_cons_of_mem _ ht2, heq⟩

/-- Every reversed-table entry corresponds to a ladder token of the claim's
table (aliases carrying their base rank). -/
theorem rev_table_token_mem (t : List Char) (r : Nat)
    (h : (t, r) ∈ rev_quality_table) :
    (String.mk t.reverse, r) ∈ dmm_quality_tokens := by
  fin_cases h <;> decide

/-- Completeness of the quality-rank parse: a URL with a non-zero rank ends
(after lowercasing) in `_<q>_<c>.mp4` or `<q>.mp4` for a ladder token `q`
— equivalently, every URL matching neither pattern ranks 0. -/
theorem trailer_rank_nonzero_shape (u : String) (hne : trailer_quality_rank u ≠ 0) :
    (∃ (p q : String) (r : Nat) (c : Char), (q, r) ∈ dmm_quality_tokens ∧
        is_ascii_lower_alpha c = true ∧
        ascii_lower u = p ++ "_" ++ q ++ "_" ++ String.mk [c] ++ ".mp4" ∧
        trailer_quality_rank u = r) ∨
    (∃ (p q : String) (r : Nat), (q, r) ∈ dmm_quality_tokens ∧
        ascii_lower u = p ++ q ++ ".mp4" ∧
        trailer_quality_rank u = r) := by
  rcases hdp : drop_pre ['4', 'p', 'm', '.'] (ascii_lower_list u.data).reverse with _ | r1
  · exact absurd (by simp [trailer_quality_rank, rank_rev, hdp]) hne
  · have hl_eq : (ascii_lower_list u.data).reverse = ['4', 'p', 'm', '.'] ++ r1 :=
      drop_pre_sound _ _ _ hdp
    rcases hp1 : rank_pat_underscore r1 with _ | r
    · -- underscore pattern failed: the plain pattern must fire
      rcases hp2 : rank_pat_plain r1 with _ | r
      · exact absurd (by simp [trailer_quality_rank, rank_rev, hdp, hp1, hp2]) hne
      · right
        have hf : ∃ rest, find_rev_token rev_quality_table r1 = some (r, rest) := by
          revert hp2
          simp only [rank_pat_plain]
          rcases find_rev_token rev_quality_table r1 with _ | ⟨r2, rest⟩
          · intro h; exact Option.noConfusion h
          · intro h
            exact ⟨rest, by rw [Option.some.inj h]⟩
        obtain ⟨rest, hf⟩ := hf
        obtain ⟨t, ht, hr1⟩ := find_rev_token_sound _ _ _ _ hf
        refine ⟨String.mk rest.reverse, String.mk t.reverse, r,
          rev_table_token_mem t r ht, ?_, ?_⟩
        · apply string_data_inj
          have hdata : ascii_lower_list u.data =
              rest.reverse ++ (t.reverse ++ ['.', 'm', 'p', '4']) := by
            have h0 : ascii_lower_list u.data =
                ((ascii_lower_list u.data).reverse).reverse := by
              rw [List.reverse_reverse]
            rw [h0, hl_eq, hr1]
            simp [List.reverse_append]
          simp [ascii_lower, mk_data, mdcx_data_append, hdata]
        · simp [trailer_quality_rank, rank_rev, hdp, hp1, hp2]
    · -- underscore pattern fired
      left
      rcases r1 with _ | ⟨c, r1t⟩
      · exact Option.noConfusion hp1
      rcases r1t with _ | ⟨u2, r2⟩
      · exact Option.noConfusion hp1
      simp only [rank_pat_underscore] at hp1
      by_cases hcond : (u2 == '_' && is_ascii_lower_alpha c) = true
      · rw [if_pos hcond] at hp1
        obtain ⟨hu2, hc⟩ := Bool.and_eq_true .. |>.mp hcond
        have hu2' : u2 = '_' := beq_iff_eq.mp hu2
        subst hu2'
        rcases hfm : find_rev_token rev_quality_table r2 with _ | ⟨r3, rest⟩
        · rw [hfm] at hp1
          exact Option.noConfusion hp1
        · rw [hfm] at hp1
          replace hp1 : (if (rest.head? == some '_') = true
              then some r3 else none) = some r := hp1
          by_cases hh : (rest.head? == some '_') = true
          · rw [if_pos hh] at hp1
            have hr3 : r3 = r := Option.some.inj hp1
            subst hr3
            rcases rest with _ | ⟨hd, rest2⟩
            · simp at hh
            · have hhd : hd = '_' := by
                have := beq_iff_eq.mp hh
                simpa using this
              subst hhd
              obtain ⟨t, ht, hr2⟩ := find_rev_token_sound _ _ _ _ hfm
              refine ⟨String.mk rest2.reverse, String.mk t.reverse, r3, c,
                rev_table_token_mem t r3 ht, hc, ?_, ?_⟩
              · apply string_data_inj
                have hdata : ascii_lower_list u.data =
                    rest2.reverse ++ ('_' :: (t.reverse ++ ('_' :: c :: ['.', 'm', 'p', '4']))) := by
                  have h0 : ascii_lower_list u.data =
                      ((ascii_lower_list u.data).reverse).reverse := by
                    rw [List.reverse_reverse]
                  rw [h0, hl_eq, hr2]
                  simp [List.reverse_append]
                simp [ascii_lower, mk_data, mdcx_data_append, hdata]
              · have hrank : rank_pat_underscore (c :: '_' :: r2) = some r3 := by
                  simp [rank_pat_underscore, hfm, hc]
                simp [trailer_quality_rank, rank_rev, hdp, hrank]
          · rw [if_neg hh] at hp1
            exact Option.noConfusion hp1
      · rw [if_neg hcond] at hp1
        exact Option.noConfusion hp1

/-- Claim C5: a trailer URL ending in `_<q>_<c>.mp4` or `<q>.mp4` for a
ladder token `q` ranks at the ladder value (sm=1, dm=2, dmb=3, mmb=4,
hmb=5, mhb=6, hhb=7, 4k=8; alias tokens mmbs/hmbs/mhbs/hhbs/4ks rank as
their base token); every URL matching neither pattern ranks 0 — stated as:
a URL not ending in `.mp4` ranks 0, an `.m3u8` suffix ranks 0, and any URL
whose rank is non-zero decomposes (lowercased) into one of the two pattern
suffixes, so in particular token-less `.mp4` names rank 0. -/
theorem c5_trailer_quality_rank_spec :
    (∀ (p q : String) (r : Nat) (c : Char), (q, r) ∈ dmm_quality_tokens →
        is_ascii_lower_alpha (ascii_lower_char c) = true →
        trailer_quality_rank (p ++ "_" ++ q ++ "_" ++ String.mk [c] ++ ".mp4") = r) ∧
    (∀ (p q : String) (r : Nat), (q, r) ∈ dmm_quality_tokens →
        trailer_quality_rank (p ++ q ++ ".mp4") = r) ∧
    (∀ u : String, str_ends_with (ascii_lower u) ".mp4" = false →
        trailer_quality_rank u = 0) ∧
    (∀ p : String, trailer_quality_rank (p ++ ".m3u8") = 0) ∧
    (∀ u : String, trailer_quality_rank u ≠ 0 →
      (∃ (p q : String) (r : Nat) (c : Char), (q, r) ∈ dmm_quality_tokens ∧
          is_ascii_lower_alpha c = true ∧
          ascii_lower u = p ++ "_" ++ q ++ "_" ++ String.mk [c] ++ ".mp4" ∧
          trailer_quality_rank u = r) ∨
      (∃ (p q : String) (r : Nat), (q, r) ∈ dmm_quality_tokens ∧
          ascii_lower u = p ++ q ++ ".mp4" ∧
          trailer_quality_rank u = r)) := by
  refine ⟨?_, ?_, ?_, ?_, ?_⟩
  · intro p q r c hq hc
    simp only [is_ascii_lower_alpha, ascii_lower_char] at hc
    fin_cases hq <;>
      simp [hc, trailer_quality_rank, mdcx_data_append, mk_data, ascii_lower_list,
        ascii_lower_char, rank_rev, drop_pre, rank_pat_underscore, rank_pat_plain,
        find_rev_token, rev_quality_table, starts_with_list, List.append_assoc,
        is_ascii_lower_alpha]
  · intro p q r hq
    fin_cases hq <;>
      simp [trailer_quality_rank, mdcx_data_append, mk_data, ascii_lower_list,
        ascii_lower_char, rank_rev, drop_pre, rank_pat_underscore, rank_pat_plain,
        find_rev_token, rev_quality_table, starts_with_list, List.append_assoc,
        is_ascii_lower_alpha]
  · intro u h
    have hnone : drop_pre ['4', 'p', 'm', '.'] (ascii_lower_list u.data).reverse = none := by
      apply drop_pre_none_of_not_starts
      simpa [str_ends_with, ascii_lower, mk_data] using h
    simp [trailer_quality_rank, rank_rev, hnone]
  · intro p
    simp [trailer_quality_rank, mdcx_data_append, mk_data, ascii_lower_list,
      ascii_lower_char, rank_rev, drop_pre, List.append_assoc]
  · exact trailer_rank_nonzero_shape


theorem path_suffix_of_name_shape (name : List Char) :
    path_suffix_of_name name = [] ∨
      ∃ t, path_suffix_of_name name = '.' :: t := by
  simp only [path_suffix_of_name]
  split_ifs <;> simp

theorem path_suffix_ne_jpg (fp : String) : path_suffix fp ≠ "jpg" := by
  unfold path_suffix
  rcases path_suffix_of_name_shape (path_name fp.data) with h | ⟨t, h⟩ <;>
    rw [h] <;> intro he <;>
    have hd := congrArg String.data he <;>
    simp [mk_data] at hd

/-- Claim C3 (code bug): the claim says a `.jpg` target fetched from a
`.webp` URL is re-encoded as JPEG.  The source tests
`file_path.suffix == "jpg"`, but `pathlib` `suffix` always carries the
leading dot (`path_suffix` returns `""` or a string starting with `'.'`),
so the webp flag is never set and the raw bytes are always written: the
re-encode branch is dead code.  Evaluated at the failing input
`("cover.jpg", …/pic.webp)`. -/
theorem c3_webp_reencode_dead_code :
    (∀ file_path url : String, download_write_mode file_path url = WriteMode.raw) ∧
    path_suffix "cover.jpg" = ".jpg" ∧
    download_webp_flag "cover.jpg" "https://pics.dmm.co.jp/digital/pic.webp" = false := by
  refine ⟨?_, rfl, rfl⟩
  intro fp u
  unfold download_write_mode download_webp_flag
  rw [beq_eq_false_iff_ne.mpr (path_suffix_ne_jpg fp)]
  simp

/-- Claim C6 (counterexample): the claim says every probe whose advertised
Content-Length is below 8192 bytes yields `None`; for an
`awsimgsrc.dmm.co.jp` URL (probed via GET) the source accepts the small
image and returns its terminal URL with the probe parameters stripped. -/
theorem c6_small_content_counterexample :
    py_int_parse "5000" = some 5000 ∧ (5000 : Int) < 8192 ∧
    check_url_attempt "https://awsimgsrc.dmm.co.jp/pics_dig/x.jpg" false false
      ⟨200, "https://awsimgsrc.dmm.co.jp/pics_dig/x.jpg?&w=120&h=90", some "5000"⟩ none
      = some (CheckResult.link "https://awsimgsrc.dmm.co.jp/pics_dig/x.jpg?&") := by
  refine ⟨rfl, by decide, rfl⟩

theorem py_int_some_ne_empty_str {s : String} {n : Int}
    (hparse : py_int_parse s = some n) : (s == "") = false := by
  rcases Bool.eq_false_or_eq_true (s == "") with h | h
  · have hs : s = "" := eq_of_beq h
    subst hs
    exact Option.noConfusion (show (none : Option Int) = some n from hparse)
  · exact h

/-- Claim C6 (amended): a probe response whose advertised Content-Length
parses below 8 KiB (8192 bytes) makes `check_url` return `None` — unless
both the original URL and the terminal URL contain `awsimgsrc.dmm.co.jp`
(the GET-probed AWS mirror), in which case the small image is accepted. -/
theorem c6_small_content_amended :
    ∀ (url : String) (lf : Bool) (resp : ProbeResponse) (pre : Option Nat)
      (s : String) (n : Int),
      resp.content_length = some s → py_int_parse s = some n → n < 8192 →
      ((str_contains resp.terminal_url "awsimgsrc.dmm.co.jp" &&
          str_contains url "awsimgsrc.dmm.co.jp") = false →
        check_url_attempt url lf false resp pre = none) ∧
      ((str_contains resp.terminal_url "awsimgsrc.dmm.co.jp" &&
          str_contains url "awsimgsrc.dmm.co.jp") = true →
        str_contains url "http" = true →
        (resp.status == 404 && str_contains url "_w.mp4") = false →
        str_contains resp.terminal_url "login" = false →
        (bad_url_keys.any fun k => str_contains resp.terminal_url k) = false →
        check_url_attempt url lf false resp pre =
          some (if lf then CheckResult.size n
                else CheckResult.link (str_replace resp.terminal_url "w=120&h=90" ""))) := by
  intro url lf resp pre s n hcl hparse hlt
  have hs_ne := py_int_some_ne_empty_str hparse
  constructor
  · intro haws
    simp only [check_url_attempt, hcl, hparse, hs_ne, haws]
    split_ifs <;> simp_all
  · intro haws hhttp h404 hlogin hbad
    have hu : (url == "") = false := by
      rcases Bool.eq_false_or_eq_true (url == "") with h | h
      · have : url = "" := eq_of_beq h
        subst this
        exact absurd hhttp (by decide)
      · exact h
    simp only [check_url_attempt, hcl, hparse, hs_ne, hu, hhttp, h404, hlogin, hbad, haws]
    split_ifs <;> simp_all

/-- Witness for claim C6 (amended) at a rejected ordinary probe and an
accepted awsimgsrc probe. -/
theorem c6_small_content_amended_witness :
    check_url_attempt "https://pics.dmm.co.jp/digital/a.jpg" false false
      ⟨200, "https://pics.dmm.co.jp/digital/a.jpg", some "100"⟩ none = none ∧
    check_url_attempt "https://awsimgsrc.dmm.co.jp/pics_dig/x.jpg" true false
      ⟨200, "https://awsimgsrc.dmm.co.jp/pics_dig/x.jpg?&w=120&h=90", some "5000"⟩ none
      = some (CheckResult.size 5000) := by
  constructor
  · exact (c6_small_content_amended "https://pics.dmm.co.jp/digital/a.jpg" false
      ⟨200, "https://pics.dmm.co.jp/digital/a.jpg", some "100"⟩ none "100" 100
      rfl rfl (by decide)).1 (by decide)
  · exact (c6_small_content_amended "https://awsimgsrc.dmm.co.jp/pics_dig/x.jpg" true
      ⟨200, "https://awsimgsrc.dmm.co.jp/pics_dig/x.jpg?&w=120&h=90", some "5000"⟩ none
      "5000" 5000 rfl rfl (by decide)).2
      (by decide) (by decide) (by decide) (by decide) (by decide)

/-- Claim C7: `MissavDetailParser._to_minutes` maps the empty input to the
empty string; when the stripped input contains a number `n`, a value
`n ≥ 300` is treated as seconds and converted to minutes rounded to the
nearest integer (never below 1), and a value `n < 300` is returned as the
minutes string itself. -/
theorem c7_missav_duration_minutes :
    to_minutes "" = "" ∧
    (∀ (s : String) (n : Nat), parsed_duration_number s = some n → 300 ≤ n →
      ∃ m, to_minutes s = toString m ∧ 1 ≤ m ∧ 60 * m ≤ n + 30 ∧ n ≤ 60 * m + 30) ∧
    (∀ (s : String) (n : Nat), parsed_duration_number s = some n → n < 300 →
      to_minutes s = toString n) := by
  refine ⟨rfl, ?_, ?_⟩
  · intro s n hp h300
    by_cases ht : (str_strip s == "") = true
    · rw [parsed_duration_number, if_pos ht] at hp
      exact Option.noConfusion hp
    · rw [parsed_duration_number, if_neg ht] at hp
      rcases Option.map_eq_some'.mp hp with ⟨ds, hds, hn⟩
      subst hn
      refine ⟨max 1 (round_half_even_div (nat_of_digits ds) 60), ?_, ?_, ?_, ?_⟩
      · simp only [to_minutes]
        rw [if_neg ht]
        simp only [hds]
        rw [if_pos h300]
      · have h2 := Nat.div_add_mod (nat_of_digits ds) 60
        have h1 : nat_of_digits ds % 60 < 60 := Nat.mod_lt _ (by norm_num)
        simp only [round_half_even_div, Nat.max_def]
        split_ifs <;> omega
      · have h2 := Nat.div_add_mod (nat_of_digits ds) 60
        have h1 : nat_of_digits ds % 60 < 60 := Nat.mod_lt _ (by norm_num)
        simp only [round_half_even_div, Nat.max_def]
        split_ifs <;> omega
      · have h2 := Nat.div_add_mod (nat_of_digits ds) 60
        have h1 : nat_of_digits ds % 60 < 60 := Nat.mod_lt _ (by norm_num)
        simp only [round_half_even_div, Nat.max_def]
        split_ifs <;> omega
  · intro s n hp h300
    by_cases ht : (str_strip s == "") = true
    · rw [parsed_duration_number, if_pos ht] at hp
      exact Option.noConfusion hp
    · rw [parsed_duration_number, if_neg ht] at hp
      rcases Option.map_eq_some'.mp hp with ⟨ds, hds, hn⟩
      subst hn
      simp only [to_minutes]
      rw [if_neg ht]
      simp only [hds]
      rw [if_neg (by omega)]

/-- Witness for claim C7 at `"500"` (seconds branch) and `"25 min"`
(minutes branch). -/
theorem c7_missav_duration_minutes_witness :
    parsed_duration_number "500" = some 500 ∧
    (∃ m, to_minutes "500" = toString m ∧ 1 ≤ m ∧ 60 * m ≤ 500 + 30 ∧ 500 ≤ 60 * m + 30) ∧
    to_minutes "25 min" = toString 25 :=
  ⟨rfl, c7_missav_duration_minutes.2.1 "500" 500 rfl (by norm_num),
    c7_missav_duration_minutes.2.2 "25 min" 25 rfl (by norm_num)⟩

/-- Claim C8: when the group timeout elapses, `GatherGroup.results` is a
list of exactly `n` entries, each the substituted `TimeoutError`; without a
timeout firing, each task's outcome — value or its own exception —
occupies its own slot in add order, so one task's exception does not
disturb its siblings. -/
theorem c8_gather_group_timeout_isolation :
    ∀ (α : Type) (outcomes : List (Except PyExc α)) (t : String),
      outcomes ≠ [] →
      (gather_group_aexit outcomes (some t) true =
          some (List.replicate outcomes.length (Except.error (group_timeout_error t))) ∧
        (List.replicate outcomes.length
            (Except.error (group_timeout_error t) : Except PyExc α)).length
          = outcomes.length ∧
        ∀ e ∈ List.replicate outcomes.length
            (Except.error (group_timeout_error t) : Except PyExc α),
          e = Except.error (group_timeout_error t)) ∧
      (∀ timeout_repr, gather_group_aexit outcomes timeout_repr false = some outcomes) := by
  intro α outcomes t hne
  have hemp : outcomes.isEmpty = false := by
    rcases Bool.eq_false_or_eq_true outcomes.isEmpty with h | h
    · exact absurd (List.isEmpty_iff.mp h) hne
    · exact h
  refine ⟨⟨?_, by simp, ?_⟩, ?_⟩
  · simp [gather_group_aexit, hemp]
  · intro e he
    exact List.eq_of_mem_replicate he
  · intro tr
    cases tr <;> simp [gather_group_aexit, hemp]

/-- Witness for claim C8 at a two-task group (one value, one exception). -/
theorem c8_gather_group_timeout_isolation_witness :
    gather_group_aexit [Except.ok (1 : Nat), Except.error (PyExc.valueError "boom")]
        (some "5") true =
      some [Except.error (group_timeout_error "5"), Except.error (group_timeout_error "5")] ∧
    gather_group_aexit [Except.ok (1 : Nat), Except.error (PyExc.valueError "boom")]
        none false =
      some [Except.ok 1, Except.error (PyExc.valueError "boom")] := by
  constructor
  · exact (c8_gather_group_timeout_isolation Nat [Except.ok 1, Except.error (PyExc.valueError "boom")] "5"
      (by simp)).1.1
  · exact (c8_gather_group_timeout_isolation Nat [Except.ok 1, Except.error (PyExc.valueError "boom")] "5"
      (by simp)).2 none

/-- Claim C10: calling `GatherGroup.add` before the group was entered via
`async with` raises `RuntimeError` and leaves the task list unchanged;
after entering, `add` appends the coroutine to the task list. -/
theorem c10_gather_group_add_requires_entered :
    ∀ (τ : Type) (g : GatherGroupState τ) (coro : τ),
      (g.entered = false → gather_group_add g coro = (g, true)) ∧
      (g.entered = true →
        gather_group_add g coro = ({ g with tasks := g.tasks ++ [coro] }, false)) := by
  intro τ g coro
  constructor <;> intro h <;> simp [gather_group_add, h]

/-- Witness for claim C10 at a fresh un-entered group. -/
theorem c10_gather_group_add_requires_entered_witness :
    gather_group_add (⟨[], false⟩ : GatherGroupState Nat) 7 = (⟨[], false⟩, true) :=
  (c10_gather_group_add_requires_entered Nat ⟨[], false⟩ 7).1 rfl

/-- Witness for claim C4 at a concrete one-record result list. -/
theorem c4_detail_merge_no_m3u8_witness :
    detail_merge [Except.ok ⟨"t", "http://x/a_sm_w.mp4"⟩] =
      some ⟨"t", "http://x/a_sm_w.mp4"⟩ ∧
    is_hls_playlist_trailer ((⟨"t", "http://x/a_sm_w.mp4"⟩ : CrawlerData)).trailer = false :=
  ⟨rfl, c4_detail_merge_no_m3u8 [Except.ok ⟨"t", "http://x/a_sm_w.mp4"⟩]
    ⟨"t", "http://x/a_sm_w.mp4"⟩ rfl⟩

/-- Witness for claim C5 at concrete URLs of both patterns and both
non-matching shapes. -/
theorem c5_trailer_quality_rank_spec_witness :
    trailer_quality_rank ("x" ++ "_" ++ "hhb" ++ "_" ++ String.mk ['w'] ++ ".mp4") = 7 ∧
    trailer_quality_rank ("y" ++ "4ks" ++ ".mp4") = 8 ∧
    trailer_quality_rank "https://h/page.html" = 0 ∧
    trailer_quality_rank ("https://h/pl" ++ ".m3u8") = 0 ∧
    ((∃ (p q : String) (r : Nat) (c : Char), (q, r) ∈ dmm_quality_tokens ∧
        is_ascii_lower_alpha c = true ∧
        ascii_lower "x_hhb_w.mp4" = p ++ "_" ++ q ++ "_" ++ String.mk [c] ++ ".mp4" ∧
        trailer_quality_rank "x_hhb_w.mp4" = r) ∨
      (∃ (p q : String) (r : Nat), (q, r) ∈ dmm_quality_tokens ∧
        ascii_lower "x_hhb_w.mp4" = p ++ q ++ ".mp4" ∧
        trailer_quality_rank "x_hhb_w.mp4" = r)) :=
  ⟨c5_trailer_quality_rank_spec.1 "x" "hhb" 7 'w' (by decide) (by decide),
   c5_trailer_quality_rank_spec.2.1 "y" "4ks" 8 (by decide),
   c5_trailer_quality_rank_spec.2.2.1 "https://h/page.html" (by decide),
   c5_trailer_quality_rank_spec.2.2.2.1 "https://h/pl",
   c5_trailer_quality_rank_spec.2.2.2.2 "x_hhb_w.mp4" (by decide)⟩
